import Mathlib

/-!
Shallow embedding of the MERN blog server's handlers
(src/controllers/postControllers.js and the user controller in
src/unnamed/part_000), together with proofs about the claims of the
specification.  Handlers are modelled as pure functions over an explicit
database/filesystem state; nondeterministic inputs of the real code
(generated uuids, fresh document ids, bcrypt hashing, jwt signing) are
passed as parameters.  Every `return next(new HttpError(...))` becomes an
`Except.error` paired with the state at that point, so that partial side
effects of failing requests stay observable.
-/

namespace MernBlog

/-- An uploaded file as seen through express-fileupload: its original
client-side name and its size in bytes. -/
structure FileUpload where
  name : String
  size : Nat
deriving DecidableEq, Repr

/-- Modelled from the spec: src/models/errorModel.js is not under src/.
Per the spec's error-handling design, every failure path resolves to a
structured error object carrying a message and a status; the constructor
`new HttpError(message, code)` sets both, while `new HttpError(message)`
(or an Error object) leaves the status absent, hence `Option Nat`. -/
structure HttpError where
  message : String
  status : Option Nat
deriving DecidableEq, Repr

/-- A User document (src/models/userModel via the user controller):
id, name, email, password hash, optional avatar filename, posts counter.
The counter is an `Int`: the code computes `posts - 1` with no floor. -/
structure User where
  id : Nat
  name : String
  email : String
  password : String
  avatar : Option String
  posts : Int
deriving DecidableEq, Repr

/-- A Post document: id, title, category, description, thumbnail
filename, creator (User id) and the `updatedAt` timestamp used by the
list handlers' descending sort. -/
structure Post where
  id : Nat
  title : String
  category : String
  description : String
  thumbnail : String
  creator : Nat
  updatedAt : Nat
deriving DecidableEq, Repr

/-- The external state a handler touches: the two document collections
and the set (as a list) of filenames present in the uploads folder. -/
structure DB where
  users : List User
  posts : List Post
  files : List String
deriving DecidableEq, Repr

/-- `findByIdAndUpdate` semantics: rewrite the first element satisfying
the predicate, leave the rest alone (document ids are unique in the
store, so at most one document matches). -/
def updateFirst (p : α → Bool) (f : α → α) : List α → List α
  | [] => []
  | x :: xs => if p x then f x :: xs else x :: updateFirst p f xs

/-- `findByIdAndDelete` semantics: remove the first element satisfying
the predicate. -/
def deleteFirst (p : α → Bool) : List α → List α
  | [] => []
  | x :: xs => if p x then xs else x :: deleteFirst p xs

/-- The closed category set checked by `isValidCategory` in
src/controllers/postControllers.js. -/
def isValidCategory (category : String) : Bool :=
  ["Agriculture", "Business", "Education", "Entertainment", "Art",
    "Investment", "Uncategorized", "Weather"].contains category

/-- JavaScript `String.prototype.toLowerCase`, character-wise over the
underlying character list (the handlers apply it to email addresses). -/
def jsToLowerCase (s : String) : String := ⟨s.data.map Char.toLower⟩

/-- JavaScript `String.prototype.trim`: drop leading and trailing
whitespace (used by `registerUser` on the password). -/
def jsTrim (s : String) : String :=
  ⟨((s.data.dropWhile Char.isWhitespace).reverse.dropWhile Char.isWhitespace).reverse⟩

/-- Splitting a character list at every occurrence of the separator. -/
def splitOnCharAux (sep : Char) : List Char → List (List Char)
  | [] => [[]]
  | c :: cs =>
    if c = sep then [] :: splitOnCharAux sep cs
    else
      match splitOnCharAux sep cs with
      | [] => [[c]]
      | l :: ls => (c :: l) :: ls

/-- JavaScript `String.prototype.split` with a one-character separator,
as the controllers use it on filenames: "a.b.png".split(".") gives
["a", "b", "png"] and "abc".split(".") gives ["abc"]. -/
def jsSplit (s : String) (sep : Char) : List String :=
  (splitOnCharAux sep s.data).map fun l => ⟨l⟩

/-- A handler's outcome: the JSON response or the structured error handed
to `next`, together with the state after the request. -/
abbrev HResult (α : Type) := Except HttpError α × DB

/-- The counter write of `createPost`: `posts: currentUser?.posts + 1`. -/
def incPosts (u : User) : User := { u with posts := u.posts + 1 }

/-- The counter write of `deletePost`: `posts: currentUser?.posts - 1`. -/
def decPosts (u : User) : User := { u with posts := u.posts - 1 }

/-- The document write of `editPost` without a new file. -/
def setPostFields (title category description : String) (p : Post) : Post :=
  { p with title := title, category := category, description := description }

/-- The document write of `editPost` with a new thumbnail filename. -/
def setPostFieldsThumb (title category description newFilename : String)
    (p : Post) : Post :=
  { p with title := title, category := category, description := description, thumbnail := newFilename }

/-- src/controllers/postControllers.js `createPost`.  `fresh` stands for
the `uuid()` value, `pid` for the store-assigned id of the new document
and `now` for its timestamp; the `thumbnail.mv` disk move is modelled as
succeeding (its error branch only forwards the OS error). -/
def createPost (uid : Nat) (title category description : String)
    (thumb : Option FileUpload) (fresh : String) (pid now : Nat)
    (db : DB) : HResult Post :=
  if title = "" || category = "" || description = "" || thumb.isNone then
    (.error ⟨"Fill in all fields and choose thumbnail.", some 422⟩, db)
  else if ¬ isValidCategory category then
    (.error ⟨"Invalid category.", some 422⟩, db)
  else
    match thumb with
    | none =>  -- unreachable: guarded by the field check above
      (.error ⟨"Fill in all fields and choose thumbnail.", some 422⟩, db)
    | some thumbnail =>
      if thumbnail.size > 2000000 then
        (.error ⟨"Thumbnail too big. File should be less than 2mb.", some 422⟩, db)
      else
        let splittedFilename := jsSplit thumbnail.name '.'
        let fileExtension := splittedFilename.getLastD ""
        let newFilename := fresh ++ "." ++ fileExtension
        let db1 : DB := { db with files := db.files ++ [newFilename] }
        let newPost : Post := ⟨pid, title, category, description, newFilename, uid, now⟩
        let db2 : DB := { db1 with posts := db1.posts ++ [newPost] }
        -- `currentUser?.posts + 1` is NaN when the caller's user document
        -- is absent, and `findByIdAndUpdate` on an absent id updates no
        -- document, so the store changes only when the user exists.
        let db3 : DB := { db2 with users := updateFirst (fun u => u.id == uid) incPosts db2.users }
        (.ok newPost, db3)

/-- One token of the ECMAScript-regex fragment reachable from
`getCatPosts`: the wildcard `.` or a literal character. -/
inductive RTok where
  | anyChar
  | lit (c : Char)
deriving DecidableEq, Repr

/-- Compile the raw `req.params.category` string into the regex fragment:
each `.` becomes the wildcard, every other character a literal.  This
models `new RegExp("^" + category + "$", "i")` for patterns containing no
ECMAScript metacharacter other than `.`; patterns using other
metacharacters are outside the fragment treated here. -/
def compilePattern (s : String) : List RTok :=
  s.data.map fun c => if c = '.' then RTok.anyChar else RTok.lit c

/-- Anchored (`^...$`) matching of the compiled pattern against a string,
with the `i` flag rendered as character-wise lower-casing. -/
def rmatch : List RTok → List Char → Bool
  | [], [] => true
  | [], _ :: _ => false
  | _ :: _, [] => false
  | RTok.anyChar :: ps, _ :: cs => rmatch ps cs
  | RTok.lit c :: ps, d :: cs => (c.toLower == d.toLower) && rmatch ps cs

/-- Insert a post into a list sorted by `updatedAt` descending. -/
def insertByUpdatedDesc (p : Post) : List Post → List Post
  | [] => [p]
  | q :: qs => if p.updatedAt ≤ q.updatedAt then q :: insertByUpdatedDesc p qs
      else p :: q :: qs

/-- The `.sort(\x7b updatedAt: -1 \x7d)` ordering of the list handlers:
most recently updated first. -/
def sortByUpdatedDesc : List Post → List Post
  | [] => []
  | p :: ps => insertByUpdatedDesc p (sortByUpdatedDesc ps)

/-- src/controllers/postControllers.js `getCatPosts`: filter the sorted
posts through the case-insensitive anchored regex built from the raw
route parameter (the creator-field populate step only decorates results
and is not modelled). -/
def getCatPosts (category : String) (db : DB) : HResult (List Post) :=
  let pat := compilePattern category
  let posts := (sortByUpdatedDesc db.posts).filter fun p => rmatch pat p.category.data
  if posts.length == 0 then
    (.error ⟨"Database has empty post.", some 404⟩, db)
  else
    (.ok posts, db)

/-- src/controllers/postControllers.js `editPost`.  `fresh` stands for
the `uuid()` value.  The old-thumbnail `fs.unlink` only logs errors, so
it is modelled as unconditional best-effort removal; `thumbnail.mv` is
modelled as succeeding. -/
def editPost (uid postId : Nat) (title category description : String)
    (file : Option FileUpload) (fresh : String) (db : DB) : HResult Post :=
  if title = "" || category = "" || description.length < 12 then
    (.error ⟨"Fill in all fields.", some 422⟩, db)
  else if ¬ isValidCategory category then
    (.error ⟨"Invalid category.", some 422⟩, db)
  else
    match db.posts.find? (fun p => p.id == postId) with
    | none => (.error ⟨"Post not found.", some 404⟩, db)
    | some oldPost =>
      if uid == oldPost.creator then
        match file with
        | none =>
          let db1 : DB := { db with posts := updateFirst (fun p => p.id == postId) (setPostFields title category description) db.posts }
          match db1.posts.find? (fun p => p.id == postId) with
          | some updatedPost => (.ok updatedPost, db1)
          | none => (.error ⟨"Couldn\x27t update post.", some 400⟩, db1)
        | some thumbnail =>
          -- delete old thumbnail from the uploads folder, before the new
          -- file is even validated
          let db1 : DB := { db with files := db.files.erase oldPost.thumbnail }
          if thumbnail.size > 2000000 then
            -- the source passes no status code to this constructor
            (.error ⟨"Thumbnail too big. Should be less than 2mb.", none⟩, db1)
          else
            let splittedFilename := jsSplit thumbnail.name '.'
            let newFilename := splittedFilename.headD "" ++ fresh ++ "." ++
              splittedFilename.getLastD ""
            let db2 : DB := { db1 with files := db1.files ++ [newFilename] }
            let db3 : DB := { db2 with posts := updateFirst (fun p => p.id == postId) (setPostFieldsThumb title category description newFilename) db2.posts }
            match db3.posts.find? (fun p => p.id == postId) with
            | some updatedPost => (.ok updatedPost, db3)
            | none => (.error ⟨"Couldn\x27t update post.", some 400⟩, db3)
      else
        -- non-owner: the update branch is skipped, `updatedPost` stays
        -- undefined and the generic failure is reported
        (.error ⟨"Couldn\x27t update post.", some 400⟩, db)

/-- src/controllers/postControllers.js `deletePost`.  `fs.unlink` of a
missing thumbnail fails and its Error is wrapped in an `HttpError` with
no status; on unlink success the post is deleted and the caller's posts
counter decremented (`currentUser?.posts - 1` is NaN when the user is
absent, and updating an absent id changes no document, so the counter
step changes the store only when the user exists). -/
def deletePost (uid postId : Nat) (db : DB) : HResult String :=
  match db.posts.find? (fun p => p.id == postId) with
  | none => (.error ⟨"Post unavailable", some 404⟩, db)
  | some post =>
    if post.creator == uid then
      let fileName := post.thumbnail
      if db.files.contains fileName then
        let db1 : DB := { db with files := db.files.erase fileName }
        let db2 : DB := { db1 with posts := deleteFirst (fun p => p.id == postId) db1.posts }
        let db3 : DB := { db2 with users := updateFirst (fun u => u.id == uid) decPosts db2.users }
        (.ok ("Post " ++ toString postId ++ " deleted successfully"), db3)
      else
        (.error ⟨"ENOENT", none⟩, db)
    else
      (.error ⟨"You are not allowed to delete this post", some 401⟩, db)

/-- src/unnamed/part_000 `registerUser`.  `hashed` stands for the bcrypt
hash of the password and `newId` for the store-assigned id; the created
document's avatar is absent and the posts counter defaults to 0 per the
data model (src/models/userModel is not under src/). -/
def registerUser (fullname email password hashed : String) (newId : Nat)
    (db : DB) : HResult String :=
  if fullname = "" || email = "" || password = "" then
    (.error ⟨"Fill in all fields.", some 422⟩, db)
  else
    let newEmail := jsToLowerCase email
    match db.users.find? (fun u => u.email == newEmail) with
    | some _ => (.error ⟨"Email already exists.", some 422⟩, db)
    | none =>
      if (jsTrim password).length < 6 then
        (.error ⟨"Password must be at least 6 characters.", some 422⟩, db)
      else
        let newUser : User := ⟨newId, fullname, newEmail, hashed, none, 0⟩
        (.ok ("New User " ++ newEmail ++ " registered."),
          { db with users := db.users ++ [newUser] })

/-- The success payload of `loginUser`: \x7btoken, id, name, newEmail\x7d. -/
structure LoginRes where
  token : String
  id : Nat
  name : String
  newEmail : String
deriving DecidableEq, Repr

/-- src/unnamed/part_000 `loginUser`.  `verify` stands for
`bcrypt.compare` and `sign` for `jwt.sign` over the \x7bid, name\x7d
payload. -/
def loginUser (email password : String) (verify : String → String → Bool)
    (sign : Nat → String → String) (db : DB) : HResult LoginRes :=
  if email = "" || password = "" then
    (.error ⟨"Fill all the fields.", some 422⟩, db)
  else
    let newEmail := jsToLowerCase email
    match db.users.find? (fun u => u.email == newEmail) with
    | none =>
      (.error ⟨"We couldn\x27t find an account linked to this email address.", some 422⟩, db)
    | some user =>
      if ¬ verify password user.password then
        (.error ⟨"The password you’ve entered is incorrect.", some 401⟩, db)
      else
        (.ok ⟨sign user.id user.name, user.id, user.name, newEmail⟩, db)

/-- The avatar write of `changeAvatar`. -/
def setAvatar (newFilename : String) (u : User) : User :=
  { u with avatar := some newFilename }

/-- src/unnamed/part_000 `changeAvatar`.  `fresh` stands for the `uuid()`
value.  Reading `.avatar` off a missing user document throws, caught as a
status-less `HttpError`; the unlink of an existing old avatar hard-fails
when the file is absent (its callback forwards the Error).  In the
oversize branch the source writes `next(new HttpError(msg), 422)`: the
422 is an argument of `next`, not of the constructor, so the error
carries no status. -/
def changeAvatar (uid : Nat) (avatar : Option FileUpload) (fresh : String)
    (db : DB) : HResult (Option String) :=
  match avatar with
  | none => (.error ⟨"Please choose an image.", some 422⟩, db)
  | some avatarFile =>
    match db.users.find? (fun u => u.id == uid) with
    | none => (.error ⟨"TypeError", none⟩, db)
    | some user =>
      if user.avatar.isSome && !(db.files.contains (user.avatar.getD "")) then
        (.error ⟨"ENOENT", none⟩, db)
      else
        let db1 : DB :=
          match user.avatar with
          | some old => { db with files := db.files.erase old }
          | none => db
        if avatarFile.size > 500000 then
          (.error ⟨"Profile picture too big. Should be less than 500kb", none⟩, db1)
        else
          let splittedFilename := jsSplit avatarFile.name '.'
          let fileExtension := splittedFilename.getLastD ""
          let newFilename := fresh ++ "." ++ fileExtension
          let db2 : DB := { db1 with files := db1.files ++ [newFilename] }
          let db3 : DB := { db2 with users := updateFirst (fun u => u.id == uid) (setAvatar newFilename) db2.users }
          match db3.users.find? (fun u => u.id == uid) with
          | some u2 => (.ok u2.avatar, db3)
          | none => (.error ⟨"Avatar couldn\x27t be changed.", some 422⟩, db3)

/-!  Helper lemmas about the store primitives. -/

theorem find?_updateFirst (p : α → Bool) (f : α → α) (l : List α) (u : α)
    (hu : l.find? p = some u) (hf : p (f u) = true) :
    (updateFirst p f l).find? p = some (f u) := by
  induction l with
  | nil => simp [List.find?] at hu
  | cons x xs ih =>
    by_cases hx : p x
    · rw [List.find?_cons_of_pos _ hx] at hu
      injection hu with hu
      subst hu
      rw [updateFirst, if_pos hx, List.find?_cons_of_pos _ hf]
    · rw [List.find?_cons_of_neg _ hx] at hu
      rw [updateFirst, if_neg hx, List.find?_cons_of_neg _ hx]
      exact ih hu

theorem find?_append_right (p : α → Bool) (l₁ l₂ : List α)
    (h : l₁.find? p = none) : (l₁ ++ l₂).find? p = l₂.find? p := by
  induction l₁ with
  | nil => simp
  | cons x xs ih =>
    by_cases hx : p x
    · rw [List.find?_cons_of_pos _ hx] at h
      exact absurd h (by simp)
    · rw [List.find?_cons_of_neg _ hx] at h
      rw [List.cons_append, List.find?_cons_of_neg _ hx]
      exact ih h

/-- Claim C1: `deletePost` by the owner removes the thumbnail file from
the uploads folder, removes the post document, decrements the creator's
posts counter by exactly 1 and responds with a confirmation message
referencing the post id. -/
theorem deletePost_owner_spec (uid postId : Nat) (db : DB) (post : Post)
    (u : User)
    (hpost : db.posts.find? (fun p => p.id == postId) = some post)
    (hown : post.creator = uid)
    (hfile : db.files.contains post.thumbnail = true)
    (huser : db.users.find? (fun v => v.id == uid) = some u) :
    (deletePost uid postId db).fst
        = .ok ("Post " ++ toString postId ++ " deleted successfully")
      ∧ (deletePost uid postId db).snd.files = db.files.erase post.thumbnail
      ∧ (deletePost uid postId db).snd.posts
        = deleteFirst (fun p => p.id == postId) db.posts
      ∧ (deletePost uid postId db).snd.users.find? (fun v => v.id == uid)
        = some { u with posts := u.posts - 1 } := by
  have hid : u.id == uid := by
    have := List.find?_some huser
    simpa using this
  unfold deletePost
  rw [hpost]
  simp only [hown, beq_self_eq_true, if_true, hfile, true_and]
  exact find?_updateFirst _ decPosts _ u huser (by simpa [decPosts] using hid)

/-- Witness for C1 at a concrete one-user, one-post state. -/
theorem deletePost_owner_spec_w :
    (deletePost 1 10 ⟨[⟨1, "Alice", "a@b.com", "h", none, 3⟩],
        [⟨10, "T", "Art", "a description.", "t.png", 1, 5⟩], ["t.png"]⟩).fst
        = .ok "Post 10 deleted successfully"
      ∧ (deletePost 1 10 ⟨[⟨1, "Alice", "a@b.com", "h", none, 3⟩],
        [⟨10, "T", "Art", "a description.", "t.png", 1, 5⟩], ["t.png"]⟩).snd.users.find?
          (fun v => v.id == 1) = some ⟨1, "Alice", "a@b.com", "h", none, 2⟩ := by
  have h := deletePost_owner_spec 1 10
    ⟨[⟨1, "Alice", "a@b.com", "h", none, 3⟩],
      [⟨10, "T", "Art", "a description.", "t.png", 1, 5⟩], ["t.png"]⟩
    ⟨10, "T", "Art", "a description.", "t.png", 1, 5⟩
    ⟨1, "Alice", "a@b.com", "h", none, 3⟩
    (by decide) (by decide) (by decide) (by decide)
  exact ⟨h.1, h.2.2.2⟩

/-- Claim C3: `deletePost` by a caller who is not the creator fails with
the 401 Unauthorized error and leaves the whole state — post documents,
uploaded files and user counters — unchanged. -/
theorem deletePost_nonowner_spec (uid postId : Nat) (db : DB) (post : Post)
    (hpost : db.posts.find? (fun p => p.id == postId) = some post)
    (hneq : post.creator ≠ uid) :
    deletePost uid postId db
      = (.error ⟨"You are not allowed to delete this post", some 401⟩, db) := by
  unfold deletePost
  rw [hpost]
  simp [hneq]

/-- Witness for C3: a second user tries to delete the first user's post. -/
theorem deletePost_nonowner_spec_w :
    deletePost 2 10 ⟨[⟨1, "Alice", "a@b.com", "h", none, 3⟩],
        [⟨10, "T", "Art", "a description.", "t.png", 1, 5⟩], ["t.png"]⟩
      = (.error ⟨"You are not allowed to delete this post", some 401⟩,
        ⟨[⟨1, "Alice", "a@b.com", "h", none, 3⟩],
          [⟨10, "T", "Art", "a description.", "t.png", 1, 5⟩], ["t.png"]⟩) :=
  deletePost_nonowner_spec 2 10
    ⟨[⟨1, "Alice", "a@b.com", "h", none, 3⟩],
      [⟨10, "T", "Art", "a description.", "t.png", 1, 5⟩], ["t.png"]⟩
    ⟨10, "T", "Art", "a description.", "t.png", 1, 5⟩
    (by decide) (by decide)

theorem isValidCategory_ne_empty (category : String)
    (h : isValidCategory category = true) : category ≠ "" := by
  intro he
  rw [he] at h
  exact absurd h (by decide)

/-- Claim C2: an authenticated caller supplying a nonempty title and
description, a category from the closed set and a thumbnail of at most
2,000,000 bytes gets a successfully created post — whose creator field is
the caller's id `uid` — and the caller's posts counter is incremented by
exactly 1. -/
theorem createPost_valid_spec (uid : Nat) (title category description : String)
    (thumb : FileUpload) (fresh : String) (pid now : Nat) (db : DB) (u : User)
    (ht : title ≠ "") (hc : isValidCategory category = true)
    (hd : description ≠ "") (hs : thumb.size ≤ 2000000)
    (hu : db.users.find? (fun v => v.id == uid) = some u) :
    (createPost uid title category description (some thumb) fresh pid now db).fst
        = .ok ⟨pid, title, category, description,
          fresh ++ "." ++ (jsSplit thumb.name '.').getLastD "", uid, now⟩
      ∧ (createPost uid title category description (some thumb) fresh pid now db).snd.users.find?
          (fun v => v.id == uid) = some { u with posts := u.posts + 1 } := by
  have hid : u.id == uid := by simpa using List.find?_some hu
  have hsz : ¬ thumb.size > 2000000 := by omega
  have hce : category ≠ "" := isValidCategory_ne_empty category hc
  constructor
  · simp [createPost, ht, hd, hc, hsz, hce]
  · simp only [createPost]
    simp [ht, hd, hc, hsz, hce]
    exact find?_updateFirst _ incPosts _ u hu (by simpa [incPosts] using hid)

/-- Witness for C2 at a concrete one-user state. -/
theorem createPost_valid_spec_w :
    (createPost 1 "T2" "Art" "a description." (some ⟨"pic.png", 100⟩) "u123" 11 6
        ⟨[⟨1, "Alice", "a@b.com", "h", none, 3⟩], [], []⟩).fst
        = .ok ⟨11, "T2", "Art", "a description.",
          "u123" ++ "." ++ (jsSplit "pic.png" '.').getLastD "", 1, 6⟩
      ∧ (createPost 1 "T2" "Art" "a description." (some ⟨"pic.png", 100⟩) "u123" 11 6
        ⟨[⟨1, "Alice", "a@b.com", "h", none, 3⟩], [], []⟩).snd.users.find?
          (fun v => v.id == 1) = some ⟨1, "Alice", "a@b.com", "h", none, 4⟩ :=
  createPost_valid_spec 1 "T2" "Art" "a description." ⟨"pic.png", 100⟩ "u123" 11 6
    ⟨[⟨1, "Alice", "a@b.com", "h", none, 3⟩], [], []⟩
    ⟨1, "Alice", "a@b.com", "h", none, 3⟩
    (by decide) (by decide) (by decide) (by decide) (by decide)

/-- Claim C4: `editPost` by a caller who is not the creator, with valid
title, category and description, performs no update and reports the
generic 400 "Couldn\x27t update post." error rather than a distinct
Forbidden/Unauthorized outcome; the state is unchanged. -/
theorem editPost_nonowner_spec (uid postId : Nat)
    (title category description : String) (file : Option FileUpload)
    (fresh : String) (db : DB) (post : Post)
    (ht : title ≠ "") (hc : isValidCategory category = true)
    (hd : 12 ≤ description.length)
    (hpost : db.posts.find? (fun p => p.id == postId) = some post)
    (hneq : uid ≠ post.creator) :
    editPost uid postId title category description file fresh db
      = (.error ⟨"Couldn\x27t update post.", some 400⟩, db) := by
  have hd' : ¬ description.length < 12 := by omega
  have hce : category ≠ "" := isValidCategory_ne_empty category hc
  unfold editPost
  rw [hpost]
  simp [ht, hc, hd', hneq, hce]

/-- Witness for C4: a second user tries to edit the first user's post. -/
theorem editPost_nonowner_spec_w :
    editPost 2 10 "T3" "Art" "a description." none "u123"
        ⟨[⟨1, "Alice", "a@b.com", "h", none, 3⟩],
          [⟨10, "T", "Art", "a description.", "t.png", 1, 5⟩], ["t.png"]⟩
      = (.error ⟨"Couldn\x27t update post.", some 400⟩,
        ⟨[⟨1, "Alice", "a@b.com", "h", none, 3⟩],
          [⟨10, "T", "Art", "a description.", "t.png", 1, 5⟩], ["t.png"]⟩) :=
  editPost_nonowner_spec 2 10 "T3" "Art" "a description." none "u123"
    ⟨[⟨1, "Alice", "a@b.com", "h", none, 3⟩],
      [⟨10, "T", "Art", "a description.", "t.png", 1, 5⟩], ["t.png"]⟩
    ⟨10, "T", "Art", "a description.", "t.png", 1, 5⟩
    (by decide) (by decide) (by decide) (by decide) (by decide)

/-- A stub `bcrypt.compare` for concrete instances. -/
def verifyStub : String → String → Bool := fun _ _ => true

/-- A stub `jwt.sign` for concrete instances. -/
def signStub : Nat → String → String := fun _ _ => "token"

/-- Counterexample to claim C5 as stated: at a state with no user stored
under the email, `loginUser` fails with a structured error whose status
is 422, not the NotFound 404 the claim requires. -/
theorem loginUser_unknown_email_cex :
    (loginUser "a@b.com" "secret" verifyStub signStub ⟨[], [], []⟩).fst
        = .error ⟨"We couldn\x27t find an account linked to this email address.", some 422⟩
      ∧ (some 422 : Option Nat) ≠ some 404 := by
  exact ⟨rfl, by decide⟩

/-- Claim C5 amended: for every email with no user stored under its
lowercase normalization, `loginUser` fails with the account-not-found
message carrying status 422 (the ValidationError code, not 404), leaving
the state unchanged. -/
theorem loginUser_unknown_email_spec (email password : String)
    (verify : String → String → Bool) (sign : Nat → String → String)
    (db : DB) (he : email ≠ "") (hp : password ≠ "")
    (hnone : db.users.find? (fun u => u.email == jsToLowerCase email) = none) :
    loginUser email password verify sign db
      = (.error ⟨"We couldn\x27t find an account linked to this email address.", some 422⟩, db) := by
  unfold loginUser
  simp [he, hp, hnone]

/-- Witness for the amended C5 at the empty state. -/
theorem loginUser_unknown_email_spec_w :
    loginUser "a@b.com" "secret" verifyStub signStub ⟨[], [], []⟩
      = (.error ⟨"We couldn\x27t find an account linked to this email address.", some 422⟩,
        ⟨[], [], []⟩) :=
  loginUser_unknown_email_spec "a@b.com" "secret" verifyStub signStub
    ⟨[], [], []⟩ (by decide) (by decide) (by rfl)

/-- Claim C6: registration stores the email lowercased, and a second
registration whose email differs only by letter case fails with the 422
duplicate-email Conflict and creates no second user document (the user
collection is left exactly as the first registration wrote it). -/
theorem registerUser_normalize_conflict_spec
    (fullname email password hashed : String) (id1 : Nat)
    (fullname2 email2 password2 hashed2 : String) (id2 : Nat) (db : DB)
    (hf : fullname ≠ "") (he : email ≠ "") (hp : password ≠ "")
    (hfree : db.users.find? (fun u => u.email == jsToLowerCase email) = none)
    (hlen : ¬ (jsTrim password).length < 6)
    (hf2 : fullname2 ≠ "") (he2 : email2 ≠ "") (hp2 : password2 ≠ "")
    (hcase : jsToLowerCase email2 = jsToLowerCase email) :
    (registerUser fullname email password hashed id1 db).snd.users
        = db.users ++ [⟨id1, fullname, jsToLowerCase email, hashed, none, 0⟩]
      ∧ registerUser fullname2 email2 password2 hashed2 id2
          (registerUser fullname email password hashed id1 db).snd
        = (.error ⟨"Email already exists.", some 422⟩,
          (registerUser fullname email password hashed id1 db).snd) := by
  have h1 : registerUser fullname email password hashed id1 db
      = (.ok ("New User " ++ jsToLowerCase email ++ " registered."),
        { db with users := db.users ++ [⟨id1, fullname, jsToLowerCase email, hashed, none, 0⟩] }) := by
    unfold registerUser
    simp [hf, he, hp, hfree, hlen]
  have hfind : (db.users ++ [(⟨id1, fullname, jsToLowerCase email, hashed, none, 0⟩ : User)]).find?
      (fun u => u.email == jsToLowerCase email2)
      = some ⟨id1, fullname, jsToLowerCase email, hashed, none, 0⟩ := by
    rw [hcase] at *
    rw [find?_append_right _ _ _ (by simpa using hfree)]
    simp
  refine ⟨by rw [h1], ?_⟩
  rw [h1]
  unfold registerUser
  simp [hf2, he2, hp2, hfind]

/-- Witness for C6: registering "B@C.com" then "b@c.COM"; the stored
email is the lowercase "b@c.com". -/
theorem registerUser_normalize_conflict_spec_w :
    ((registerUser "Bob" "B@C.com" "secret7" "hh" 2 ⟨[], [], []⟩).snd.users
        = [] ++ [⟨2, "Bob", jsToLowerCase "B@C.com", "hh", none, 0⟩]
      ∧ registerUser "Ben" "b@c.COM" "secret8" "hh2" 3
          (registerUser "Bob" "B@C.com" "secret7" "hh" 2 ⟨[], [], []⟩).snd
        = (.error ⟨"Email already exists.", some 422⟩,
          (registerUser "Bob" "B@C.com" "secret7" "hh" 2 ⟨[], [], []⟩).snd))
      ∧ jsToLowerCase "B@C.com" = "b@c.com" :=
  ⟨registerUser_normalize_conflict_spec "Bob" "B@C.com" "secret7" "hh" 2
    "Ben" "b@c.COM" "secret8" "hh2" 3 ⟨[], [], []⟩
    (by decide) (by decide) (by decide) (by rfl) (by decide)
    (by decide) (by decide) (by decide) (by decide), by decide⟩


/-- The specification's case-insensitive comparison for `listByCategory`,
stated from the spec's words for refinement comparison with
`getCatPosts`: the stored category `a` equals the query `b` up to letter
case. -/
def ciEq (a b : String) : Bool :=
  a.data.map Char.toLower == b.data.map Char.toLower

/-- The specification's `listByCategory`, stated from the spec's words
for refinement comparison with `getCatPosts`: exactly the posts whose
stored category equals the query case-insensitively, in the same
ordering, with the 404 error when none match. -/
def specListByCategory (c : String) (db : DB) : HResult (List Post) :=
  let posts := (sortByUpdatedDesc db.posts).filter fun p => ciEq p.category c
  if posts.length == 0 then
    (.error ⟨"Database has empty post.", some 404⟩, db)
  else
    (.ok posts, db)

/-- The ECMAScript regex metacharacters: `getCatPosts` feeds the raw
route parameter into `new RegExp`, so only inputs avoiding these are
matched as plain text. -/
def jsRegexMetachars : List Char :=
  ['.', '*', '+', '?', '^', '$', '(', ')', '[', ']', '\x7b', '\x7d', '|', '\\']

theorem beq_swap (a b : List Char) : (a == b) = (b == a) := by
  cases hab : a == b <;> cases hba : b == a <;> simp_all [beq_iff_eq]

theorem rmatch_of_no_dot (l m : List Char) (h : '.' ∉ l) :
    rmatch (l.map fun c => if c = '.' then RTok.anyChar else RTok.lit c) m
      = (l.map Char.toLower == m.map Char.toLower) := by
  induction l generalizing m with
  | nil => cases m <;> simp [rmatch]
  | cons a l ih =>
    have ha : ¬ a = '.' := fun hh => h (by simp [hh])
    have h' : '.' ∉ l := fun hh => h (List.mem_cons_of_mem _ hh)
    cases m with
    | nil => simp [rmatch, ha]
    | cons b m =>
      simp only [rmatch, List.map_cons, if_neg ha, ih m h', List.cons_beq_cons]

theorem getCatPosts_eq_specListByCategory (c : String) (db : DB)
    (h : '.' ∉ c.data) : getCatPosts c db = specListByCategory c db := by
  unfold getCatPosts specListByCategory
  have he : ∀ p : Post, rmatch (compilePattern c) p.category.data = ciEq p.category c := by
    intro p
    unfold compilePattern ciEq
    rw [rmatch_of_no_dot _ _ h, beq_swap]
  simp only [he]

/-- Counterexample to claim C7 as stated: quantified over all input
strings it fails, because the raw parameter is compiled into a regular
expression.  The query "Ar." (with the metacharacter `.`) matches the
stored category "Art" although the two are not case-insensitively equal,
so `getCatPosts` returns the post while the spec's case-insensitive
exact match returns none. -/
theorem getCatPosts_metachar_cex :
    (getCatPosts "Ar." ⟨[], [⟨10, "T", "Art", "d", "t.png", 1, 5⟩], ["t.png"]⟩).fst
        = .ok [⟨10, "T", "Art", "d", "t.png", 1, 5⟩]
      ∧ ciEq "Art" "Ar." = false
      ∧ (specListByCategory "Ar." ⟨[], [⟨10, "T", "Art", "d", "t.png", 1, 5⟩], ["t.png"]⟩).fst
        = .error ⟨"Database has empty post.", some 404⟩ :=
  ⟨by rfl, by decide, by rfl⟩

/-- Claim C7 amended: for every category string containing no ECMAScript
regex metacharacter, `getCatPosts` coincides with the spec's
case-insensitive exact match `specListByCategory` (same result set, same
ordering, same emptiness error); in particular "art" and "Art" give
identical results.  For metacharacter inputs the raw parameter acts as a
regular expression instead (see the counterexample). -/
theorem getCatPosts_ci_spec (c : String) (db : DB)
    (h : ∀ ch ∈ c.data, ch ∉ jsRegexMetachars) :
    getCatPosts c db = specListByCategory c db
      ∧ getCatPosts "art" db = getCatPosts "Art" db := by
  have hdot : '.' ∉ c.data := fun hc => h '.' hc (by decide)
  refine ⟨getCatPosts_eq_specListByCategory c db hdot, ?_⟩
  rw [getCatPosts_eq_specListByCategory "art" db (by decide),
    getCatPosts_eq_specListByCategory "Art" db (by decide)]
  unfold specListByCategory
  have he : ∀ p : Post, ciEq p.category "art" = ciEq p.category "Art" := by
    intro p
    unfold ciEq
    have e : "art".data.map Char.toLower = "Art".data.map Char.toLower := by decide
    rw [e]
  simp only [he]

/-- Witness for C7 at a one-post state with the query "art". -/
theorem getCatPosts_ci_spec_w :
    getCatPosts "art" ⟨[], [⟨10, "T", "Art", "d", "t.png", 1, 5⟩], ["t.png"]⟩
        = specListByCategory "art" ⟨[], [⟨10, "T", "Art", "d", "t.png", 1, 5⟩], ["t.png"]⟩
      ∧ getCatPosts "art" ⟨[], [⟨10, "T", "Art", "d", "t.png", 1, 5⟩], ["t.png"]⟩
        = getCatPosts "Art" ⟨[], [⟨10, "T", "Art", "d", "t.png", 1, 5⟩], ["t.png"]⟩ :=
  getCatPosts_ci_spec "art" ⟨[], [⟨10, "T", "Art", "d", "t.png", 1, 5⟩], ["t.png"]⟩
    (by decide)


/-- Claim C8 (code bug): at a concrete state, an avatar upload of
500,001 bytes makes `changeAvatar` fail with the oversize message but
with NO status attached: the literal 422 in the source is passed as a
second argument to `next`, not to the `HttpError` constructor, so the
structured error does not carry the 422 the claim (and the spec's
ValidationError taxonomy) requires. -/
theorem changeAvatar_oversize_no_status :
    (changeAvatar 1 (some ⟨"av.png", 500001⟩) "u9"
        ⟨[⟨1, "Alice", "a@b.com", "h", none, 0⟩], [], []⟩).fst
      = .error ⟨"Profile picture too big. Should be less than 500kb", none⟩ := by
  rfl

/-- Counterexample to claim C9 as stated: editing with upload "pic.png"
and unique id "u123" stores "picu123.png" — base name first, then the
unique id — not the prefixed "u123pic.png" the claim requires. -/
theorem editPost_filename_cex :
    (editPost 1 10 "T3" "Art" "123456789012" (some ⟨"pic.png", 100⟩) "u123"
        ⟨[], [⟨10, "T", "Art", "d", "t.png", 1, 5⟩], ["t.png"]⟩).fst
        = .ok ⟨10, "T3", "Art", "123456789012", "picu123.png", 1, 5⟩
      ∧ "picu123.png" ≠ "u123" ++ "pic" ++ ".png" :=
  ⟨by rfl, by decide⟩

/-- Claim C9 amended: when an owner edit supplies a new thumbnail file,
the stored replacement filename is the first dot-segment of the uploaded
name, then the generated unique id appended after it, then a dot and the
last dot-segment (the extension) — the unique id is appended after the
base name, not prefixed before it. -/
theorem editPost_filename_spec (uid postId : Nat)
    (title category description : String) (thumb : FileUpload)
    (fresh : String) (db : DB) (post : Post)
    (ht : title ≠ "") (hc : isValidCategory category = true)
    (hd : 12 ≤ description.length)
    (hpost : db.posts.find? (fun p => p.id == postId) = some post)
    (hown : uid = post.creator) (hs : thumb.size ≤ 2000000) :
    (editPost uid postId title category description (some thumb) fresh db).fst
      = .ok (setPostFieldsThumb title category description
          ((jsSplit thumb.name '.').headD "" ++ fresh ++ "." ++
            (jsSplit thumb.name '.').getLastD "") post) := by
  have hd' : ¬ description.length < 12 := by omega
  have hce : category ≠ "" := isValidCategory_ne_empty category hc
  have hsz : ¬ thumb.size > 2000000 := by omega
  have hpid : (post.id == postId) = true := by simpa using List.find?_some hpost
  have hfind := find?_updateFirst (fun p => p.id == postId)
    (setPostFieldsThumb title category description
      ((jsSplit thumb.name '.').headD "" ++ fresh ++ "." ++
        (jsSplit thumb.name '.').getLastD ""))
    db.posts post hpost (by simpa [setPostFieldsThumb] using hpid)
  simp only [List.headD_eq_head?, List.getLastD_eq_getLast?] at hfind
  unfold editPost
  rw [hpost]
  simp [ht, hce, hd', hc, hown, hsz, hfind]

/-- Witness for C9: the "pic.png"/"u123" edit stores "picu123.png". -/
theorem editPost_filename_spec_w :
    ((editPost 1 10 "T3" "Art" "123456789012" (some ⟨"pic.png", 100⟩) "u123"
        ⟨[], [⟨10, "T", "Art", "d", "t.png", 1, 5⟩], ["t.png"]⟩).fst
      = .ok (setPostFieldsThumb "T3" "Art" "123456789012"
          ((jsSplit "pic.png" '.').headD "" ++ "u123" ++ "." ++
            (jsSplit "pic.png" '.').getLastD "")
          ⟨10, "T", "Art", "d", "t.png", 1, 5⟩))
      ∧ (jsSplit "pic.png" '.').headD "" ++ "u123" ++ "." ++
          (jsSplit "pic.png" '.').getLastD "" = "picu123.png" :=
  ⟨editPost_filename_spec 1 10 "T3" "Art" "123456789012" ⟨"pic.png", 100⟩ "u123"
    ⟨[], [⟨10, "T", "Art", "d", "t.png", 1, 5⟩], ["t.png"]⟩
    ⟨10, "T", "Art", "d", "t.png", 1, 5⟩
    (by decide) (by decide) (by decide) (by rfl) (by rfl) (by decide), by decide⟩

/-- Claim C10: in an owner edit that supplies a replacement thumbnail
larger than 2,000,000 bytes, the old thumbnail's deletion is issued
before the size check, so the request fails (with the status-less
oversize error), the post documents are left unchanged — the post still
references the old filename — yet the old thumbnail file has already
been removed from the uploads folder. -/
theorem editPost_oversize_orphan_spec (uid postId : Nat)
    (title category description : String) (thumb : FileUpload)
    (fresh : String) (db : DB) (post : Post)
    (ht : title ≠ "") (hc : isValidCategory category = true)
    (hd : 12 ≤ description.length)
    (hpost : db.posts.find? (fun p => p.id == postId) = some post)
    (hown : uid = post.creator) (hbig : thumb.size > 2000000) :
    (editPost uid postId title category description (some thumb) fresh db).fst
        = .error ⟨"Thumbnail too big. Should be less than 2mb.", none⟩
      ∧ (editPost uid postId title category description (some thumb) fresh db).snd.posts
        = db.posts
      ∧ (editPost uid postId title category description (some thumb) fresh db).snd.files
        = db.files.erase post.thumbnail := by
  have hd' : ¬ description.length < 12 := by omega
  have hce : category ≠ "" := isValidCategory_ne_empty category hc
  unfold editPost
  rw [hpost]
  simp [ht, hce, hd', hc, hown, hbig]

/-- Witness for C10: the oversize edit at a concrete one-post state. -/
theorem editPost_oversize_orphan_spec_w :
    (editPost 1 10 "T3" "Art" "123456789012" (some ⟨"pic.png", 3000000⟩) "u123"
        ⟨[], [⟨10, "T", "Art", "d", "t.png", 1, 5⟩], ["t.png"]⟩).fst
        = .error ⟨"Thumbnail too big. Should be less than 2mb.", none⟩
      ∧ (editPost 1 10 "T3" "Art" "123456789012" (some ⟨"pic.png", 3000000⟩) "u123"
        ⟨[], [⟨10, "T", "Art", "d", "t.png", 1, 5⟩], ["t.png"]⟩).snd.posts
        = [⟨10, "T", "Art", "d", "t.png", 1, 5⟩]
      ∧ (editPost 1 10 "T3" "Art" "123456789012" (some ⟨"pic.png", 3000000⟩) "u123"
        ⟨[], [⟨10, "T", "Art", "d", "t.png", 1, 5⟩], ["t.png"]⟩).snd.files
        = ["t.png"].erase "t.png" :=
  editPost_oversize_orphan_spec 1 10 "T3" "Art" "123456789012" ⟨"pic.png", 3000000⟩
    "u123" ⟨[], [⟨10, "T", "Art", "d", "t.png", 1, 5⟩], ["t.png"]⟩
    ⟨10, "T", "Art", "d", "t.png", 1, 5⟩
    (by decide) (by decide) (by decide) (by rfl) (by rfl) (by decide)

end MernBlog
